import Mathlib

/-!
Verification of the load-test engine in `src/loadtest.js`.

The JavaScript source is shallowly embedded: each JS function becomes a
Lean definition over explicit data, HTTP transport becomes an oracle
parameter, JS exceptions become `Except`, and the JS number `NaN`
(arising from division by zero, which does not throw in JS) becomes
`Option.none`.  `Math.round(a/b)` on nonnegative operands is
`(2*a + b) / (2*b)` in exact natural arithmetic (JS rounds half toward
positive infinity).
-/

/-- A completed request record, as built by `runRequest` (lines 62-75):
`{ name, status, duration, success }`. -/
structure RequestResult where
  name : String
  status : Nat
  duration : Nat
  success : Bool
deriving Repr, DecidableEq

/-- The JS `req.url` field is either a plain string or a structured
object carrying a `raw` string (line 46 checks `typeof req.url`). -/
inductive JsUrl where
  | str (s : String)
  | obj (raw : String)
deriving Repr, DecidableEq

/-- The raw Postman request object inside a collection item.  A header
entry whose `key` field is absent is `(none, v)`: JS later coerces the
missing key to the property name "undefined". -/
structure RawRequest where
  url : JsUrl
  method : Option String
  header : List (Option String × String)
  body : Option String
deriving Repr, DecidableEq

/-- A collection item: `{ name, request }`.  `request` is optional
because the code never checks its presence before dereferencing it
(line 45). -/
structure Item where
  name : String
  request : Option RawRequest
deriving Repr, DecidableEq

/-- Line 46: `typeof req.url === 'string' ? req.url : req.url.raw`. -/
def resolveUrl : JsUrl → String
  | .str s => s
  | .obj raw => raw

/-- Line 47: `req.method || 'GET'`. -/
def resolveMethod (m : Option String) : String := m.getD "GET"

/-- JS property-key coercion for the computed key `[h.key]` on line 48:
an absent key becomes the string "undefined". -/
def coerceKey (k : Option String) : String := k.getD "undefined"

/-- JS object update `{...acc, [k]: v}`: if `k` is already a property
the later computed entry overwrites its value in place; otherwise the
new property is appended (JS string-key insertion order). -/
def objSet (m : List (String × String)) (k v : String) : List (String × String) :=
  if m.any (fun p => p.1 = k) then
    m.map (fun p => if p.1 = k then (k, v) else p)
  else m ++ [(k, v)]

/-- Line 48: `(req.header || []).reduce((acc, h) => ({ ...acc, [h.key]: h.value }), {})`. -/
def resolveHeaders (hs : List (Option String × String)) : List (String × String) :=
  hs.foldl (fun acc h => objSet acc (coerceKey h.1) h.2) []

/-- Property read on a JS object modelled as an ordered association list. -/
def lookupObj (m : List (String × String)) (k : String) : Option String :=
  (m.find? (fun p => p.1 = k)).map (fun p => p.2)

/-- The normalized request descriptor handed to axios (lines 46-49). -/
structure ResolvedSpec where
  method : String
  url : String
  headers : List (String × String)
  body : Option String
deriving Repr, DecidableEq

/-- Lines 45-49 of `runRequest`: resolution of a structurally valid raw
request.  Note `req.body?.raw || null` maps an absent body to `null`;
both are `none` here. -/
def resolveSpec (req : RawRequest) : ResolvedSpec :=
  { method := resolveMethod req.method
  , url := resolveUrl req.url
  , headers := resolveHeaders req.header
  , body := req.body }

/-- Outcome of one axios dispatch: `status = some s` when a response
with status `s` was received (`validateStatus: () => true` accepts every
status, line 58), `status = none` on a transport-level failure (timeout,
connection, DNS, TLS).  `duration` is the measured elapsed time. -/
structure NetOutcome where
  status : Option Nat
  duration : Nat
deriving Repr, DecidableEq

/-- Lines 44-76, `runRequest(item)`.  The transport is the oracle `net`.
Dereferencing a missing `request` (line 45-46) throws a TypeError that
is OUTSIDE the try block starting at line 52, hence `Except.error`.
A received response yields `success = status in [200, 400)` (line 66);
a transport failure is caught and yields status 0, success false
(lines 68-75). -/
def runRequest (item : Item) (net : ResolvedSpec → NetOutcome) :
    Except Unit RequestResult :=
  match item.request with
  | none => .error ()
  | some req =>
      .ok (match (net (resolveSpec req)).status with
        | some s =>
            { name := item.name, status := s
            , duration := (net (resolveSpec req)).duration
            , success := decide (200 ≤ s) && decide (s < 400) }
        | none =>
            { name := item.name, status := 0
            , duration := (net (resolveSpec req)).duration
            , success := false })

/-- Line 82: `const totalRequests = config.users * config.repetitions * collection.length`. -/
def totalRequests (users repetitions : Nat) (collection : List Item) : Nat :=
  users * repetitions * collection.length

/-- The work of the run laid out in canonical order: user index, then
repetition index, then item index with its item (the nested loops of
lines 102-114).  Starts are staggered by `i * delayMsBetweenUsers`
(line 113); the stagger only shifts real time, so the interleaving of
result emissions is abstracted to this canonical order, which the
counted and grouped quantities below do not depend on. -/
def requestSchedule (users repetitions : Nat) (collection : List Item) :
    List (Nat × Nat × Nat × Item) :=
  (List.range users).flatMap (fun u =>
    (List.range repetitions).flatMap (fun r =>
      collection.enum.map (fun p => (u, r, p.1, p.2))))

/-- Lines 79-116 of `simulateLoad`, restricted to result production:
every scheduled request is executed through `runRequest`.  The transport
oracle may depend on the user, repetition, item index and the resolved
spec.  A resolution TypeError (missing `request`) escapes `runRequest`
uncaught: that virtual user stops, its promise never resolves, and
`Promise.all` (line 116) never fulfills — modelled as `Except.error`. -/
def simulateLoad (users repetitions : Nat) (collection : List Item)
    (net : Nat → Nat → Nat → ResolvedSpec → NetOutcome) :
    Except Unit (List RequestResult) :=
  (requestSchedule users repetitions collection).mapM
    (fun t => runRequest t.2.2.2 (net t.1 t.2.1 t.2.2.1))

/-- The shared mutable state of the orchestrator: the `results` array
(line 81) and the `completedRequests` counter (line 83). -/
structure RunState where
  results : List RequestResult
  completed : Nat
deriving Repr, DecidableEq

/-- Lines 107-109: `results.push(result); completedRequests++;
updateProgress()`.  The three statements contain no await, so the block
runs atomically on the JS event loop: one emission step. -/
def emitStep (s : RunState) (r : RequestResult) : RunState :=
  { results := s.results ++ [r], completed := s.completed + 1 }

/-- The shared state after a sequence of emissions, starting from the
empty array and zero counter (lines 81 and 83). -/
def runEmissions (rs : List RequestResult) : RunState :=
  rs.foldl emitStep { results := [], completed := 0 }

/-- Line 90: `Math.round((completedRequests / totalRequests) * 100)`.
In JS `c / 0` is `NaN` (no exception) and `Math.round(NaN)` is `NaN`:
modelled as `none`.  For `t > 0` the value is the exact
`round(100 * c / t)` with ties rounded up. -/
def progressPct (c t : Nat) : Option Nat :=
  if t = 0 then none else some ((200 * c + t) / (2 * t))

/-- `Math.round(num / den)` for nonnegative operands and `den > 0`,
in exact arithmetic: floor of `num/den + 1/2` (JS rounds half up). -/
def jsRound (num den : Nat) : Nat := (2 * num + den) / (2 * den)

/-- One group of the `summary` object (lines 124-132): the durations in
arrival order and the error count for one request name. -/
structure SummaryGroup where
  name : String
  times : List Nat
  errors : Nat
deriving Repr, DecidableEq

/-- Lines 126-132: fold one result into the summary.  A new name is
appended (JS object insertion order, first-seen); an existing name gets
the duration pushed and, when the result failed, its error bumped. -/
def addResult (acc : List SummaryGroup) (r : RequestResult) : List SummaryGroup :=
  if acc.any (fun g => g.name = r.name) then
    acc.map (fun g =>
      if g.name = r.name then
        { g with
          times := g.times ++ [r.duration]
          errors := g.errors + (if r.success then 0 else 1) }
      else g)
  else acc ++ [{ name := r.name, times := [r.duration]
               , errors := if r.success then 0 else 1 }]

/-- The grouping pass over the whole result list (lines 124-132). -/
def buildSummary (results : List RequestResult) : List SummaryGroup :=
  results.foldl addResult []

/-- Line 142: `[...data.times].sort((a, b) => a - b)` — ascending sort. -/
def sortTimes (l : List Nat) : List Nat := l.insertionSort (fun a b => a ≤ b)

/-- The index used on line 143: `Math.floor(0.95 * sorted.length)`,
exactly `95 * n / 100` in natural (floor) division. -/
def p95Index (n : Nat) : Nat := 95 * n / 100

/-- Line 143: `sorted[Math.floor(0.95 * sorted.length)]`.  The code does
no clamping; an out-of-bounds read would be `undefined`, here a default
that is never reached on nonempty input. -/
def p95 (times : List Nat) : Nat :=
  (sortTimes times).getD (p95Index times.length) 0

/-- `Math.max(...times)` over a nonempty group. -/
def listMax (l : List Nat) : Nat := l.foldl max 0

/-- `Math.min(...times)` over a group, seeded with its first element
(groups are never empty by construction). -/
def listMin : List Nat → Nat
  | [] => 0
  | a :: l => l.foldl min a

/-- One output row (lines 136-155): count, errors, rounded average,
max, min, p95 and rounded success rate for a group. -/
structure SummaryRow where
  name : String
  count : Nat
  errors : Nat
  avg : Nat
  max : Nat
  min : Nat
  p95 : Nat
  successRate : Nat
deriving Repr, DecidableEq

/-- Lines 136-155: the per-name statistics computed from one group. -/
def mkRow (g : SummaryGroup) : SummaryRow :=
  { name := g.name
  , count := g.times.length
  , errors := g.errors
  , avg := jsRound g.times.sum g.times.length
  , max := listMax g.times
  , min := listMin g.times
  , p95 := p95 g.times
  , successRate := jsRound ((g.times.length - g.errors) * 100) g.times.length }

/-- The rendered table body of `showSummary` (lines 123-157). -/
def summaryRows (results : List RequestResult) : List SummaryRow :=
  (buildSummary results).map mkRow

/-- Line 161: total errors summed over the summary groups. -/
def globalErrors (results : List RequestResult) : Nat :=
  (buildSummary results).foldl (fun acc g => acc + g.errors) 0

/-- Line 162: `Math.round(((totalRequests - totalErrors) / totalRequests) * 100)`.
With zero results this is `Math.round(NaN)` = `NaN` in JS (no throw):
modelled as `none`. -/
def globalSuccessRate (results : List RequestResult) : Option Nat :=
  if results.length = 0 then none
  else some (jsRound ((results.length - globalErrors results) * 100) results.length)

/-- Line 164: `Math.round(sum of durations / allTimes.length)`.  With
zero results this is `0 / 0` = `NaN` in JS (no throw): `none`. -/
def globalAvg (results : List RequestResult) : Option Nat :=
  if results.length = 0 then none
  else some (jsRound (results.map (fun r => r.duration)).sum results.length)

/-- The parsed contents of `config.json`: any subset of the four fields
may be present.  Numeric fields are integers — `loadConfig` never
inspects their values, so 0 and negatives pass through. -/
structure UserConfig where
  collectionPath : Option String
  users : Option Int
  repetitions : Option Int
  delayMsBetweenUsers : Option Int
deriving Repr, DecidableEq

/-- The effective run configuration (the shape of `DEFAULT_CONFIG`,
lines 8-13). -/
structure RunConfig where
  collectionPath : String
  users : Int
  repetitions : Int
  delayMsBetweenUsers : Int
deriving Repr, DecidableEq

/-- Lines 8-13. -/
def DEFAULT_CONFIG : RunConfig :=
  { collectionPath := "./collection.json"
  , users := 10
  , repetitions := 1
  , delayMsBetweenUsers := 10 }

/-- Line 24: `{ ...DEFAULT_CONFIG, ...userConfig }` — field-by-field,
a present field of the user config wins, with no range check. -/
def mergeConfig (uc : UserConfig) : RunConfig :=
  { collectionPath := uc.collectionPath.getD DEFAULT_CONFIG.collectionPath
  , users := uc.users.getD DEFAULT_CONFIG.users
  , repetitions := uc.repetitions.getD DEFAULT_CONFIG.repetitions
  , delayMsBetweenUsers :=
      uc.delayMsBetweenUsers.getD DEFAULT_CONFIG.delayMsBetweenUsers }

/-- Lines 16-32, `loadConfig()`.  `none` stands for a missing config
file or one whose read or parse threw (caught on line 26): both paths
fall back to the defaults. -/
def loadConfig (file : Option UserConfig) : RunConfig :=
  match file with
  | some uc => mergeConfig uc
  | none => DEFAULT_CONFIG

/-! ### Helper lemmas -/

/-- Structural version of `List.mapM` in the `Except Unit` monad,
stopping at the first error: the evaluation order of the awaited
sequential loop. -/
def exceptMapList {α β : Type} (f : α → Except Unit β) : List α → Except Unit (List β)
  | [] => .ok []
  | a :: l =>
    match f a with
    | .error e => .error e
    | .ok y =>
      match exceptMapList f l with
      | .error e => .error e
      | .ok ys => .ok (y :: ys)

theorem mapM_eq_exceptMapList {α β : Type} (f : α → Except Unit β) :
    ∀ xs : List α, xs.mapM f = exceptMapList f xs := by
  intro xs
  rw [← List.mapM'_eq_mapM]
  induction xs with
  | nil => rfl
  | cons a l ih =>
    rw [List.mapM'_cons, ih]
    cases hfa : f a with
    | error e => simp only [exceptMapList, hfa]; rfl
    | ok y =>
      cases hrest : exceptMapList f l with
      | error e => simp only [exceptMapList, hfa, hrest]; rfl
      | ok ys => simp only [exceptMapList, hfa, hrest]; rfl

theorem exceptMapList_ok_of_all {α β : Type} (f : α → Except Unit β) :
    ∀ xs : List α, (∀ x ∈ xs, ∃ y, f x = .ok y) →
      ∃ ys : List β, exceptMapList f xs = .ok ys ∧ ys.length = xs.length ∧
        ∀ y ∈ ys, ∃ x ∈ xs, f x = .ok y := by
  intro xs
  induction xs with
  | nil => exact fun _ => ⟨[], rfl, rfl, by simp⟩
  | cons a l ih =>
    intro h
    obtain ⟨y, hy⟩ := h a (by simp)
    obtain ⟨ys, hys, hlen, hmem⟩ := ih (fun x hx => h x (by simp [hx]))
    refine ⟨y :: ys, ?_, by simp [hlen], ?_⟩
    · simp [exceptMapList, hy, hys]
    · intro z hz
      rcases List.mem_cons.mp hz with h1 | h2
      · exact ⟨a, by simp, h1 ▸ hy⟩
      · obtain ⟨x, hx, hfx⟩ := hmem z h2
        exact ⟨x, by simp [hx], hfx⟩

theorem exceptMapList_all_of_ok {α β : Type} (f : α → Except Unit β) :
    ∀ (xs : List α) (ys : List β), exceptMapList f xs = .ok ys →
      ∀ x ∈ xs, ∃ y, f x = .ok y := by
  intro xs
  induction xs with
  | nil => simp
  | cons a l ih =>
    intro ys hys x hx
    cases hfa : f a with
    | error e => simp [exceptMapList, hfa] at hys
    | ok y =>
      rcases List.mem_cons.mp hx with h1 | h2
      · exact ⟨y, h1 ▸ hfa⟩
      · cases hrest : exceptMapList f l with
        | error e => simp [exceptMapList, hfa, hrest] at hys
        | ok ys0 => exact ih ys0 hrest x h2

theorem exceptMapList_length {α β : Type} (f : α → Except Unit β) :
    ∀ (xs : List α) (ys : List β), exceptMapList f xs = .ok ys → ys.length = xs.length := by
  intro xs
  induction xs with
  | nil => intro ys hys; cases hys; rfl
  | cons a l ih =>
    intro ys hys
    cases hfa : f a with
    | error e => simp [exceptMapList, hfa] at hys
    | ok y =>
      cases hrest : exceptMapList f l with
      | error e => simp [exceptMapList, hfa, hrest] at hys
      | ok ys0 =>
        simp only [exceptMapList, hfa, hrest] at hys
        cases hys
        simp [ih ys0 hrest]

theorem flatMap_length_const {α β : Type} (f : α → List β) (k : Nat)
    (hf : ∀ a, (f a).length = k) : ∀ l : List α, (l.flatMap f).length = l.length * k := by
  intro l
  induction l with
  | nil => simp
  | cons a l ih => simp [ih, hf, Nat.succ_mul, Nat.add_comm]

theorem requestSchedule_length (users repetitions : Nat) (collection : List Item) :
    (requestSchedule users repetitions collection).length =
      totalRequests users repetitions collection := by
  have hinner : ∀ u : Nat,
      ((List.range repetitions).flatMap
        (fun r => collection.enum.map (fun p => (u, r, p.1, p.2)))).length =
        repetitions * collection.length := by
    intro u
    rw [flatMap_length_const _ collection.length (fun r => by simp)]
    simp
  unfold requestSchedule totalRequests
  rw [flatMap_length_const _ (repetitions * collection.length) hinner]
  simp [Nat.mul_assoc]

theorem requestSchedule_item_mem (users repetitions : Nat) (collection : List Item) :
    ∀ t ∈ requestSchedule users repetitions collection, t.2.2.2 ∈ collection := by
  intro t ht
  unfold requestSchedule at ht
  simp only [List.mem_flatMap, List.mem_map] at ht
  obtain ⟨u, _, r, _, p, hp, hpt⟩ := ht
  have hmem : p.2 ∈ collection :=
    List.getElem?_mem (List.mem_enum_iff_getElem?.mp hp)
  rw [← hpt]
  exact hmem

theorem requestSchedule_mem_of_item (users repetitions : Nat) (collection : List Item)
    (hu : 1 ≤ users) (hr : 1 ≤ repetitions) (it : Item) (hit : it ∈ collection) :
    ∃ t ∈ requestSchedule users repetitions collection, t.2.2.2 = it := by
  obtain ⟨n, hn⟩ := List.mem_iff_getElem?.mp hit
  refine ⟨(0, 0, n, it), ?_, rfl⟩
  unfold requestSchedule
  simp only [List.mem_flatMap, List.mem_map]
  exact ⟨0, List.mem_range.mpr hu, 0, List.mem_range.mpr hr, (n, it),
    List.mem_enum_iff_getElem?.mpr hn, rfl⟩

theorem runRequest_ok_name (item : Item) (net : ResolvedSpec → NetOutcome)
    (y : RequestResult) : runRequest item net = .ok y → y.name = item.name := by
  unfold runRequest
  cases item.request with
  | none => simp
  | some req =>
    intro h
    cases hs : (net (resolveSpec req)).status <;> simp only [hs] at h <;>
      simp at h <;> simp [← h]

/-! ### Concrete fixtures used to instantiate the proved theorems -/

/-- A structurally valid raw request. -/
def rawPing : RawRequest :=
  { url := .str "http://example.test/ok", method := none, header := [], body := none }

/-- A well-formed collection item. -/
def itemPing : Item := { name := "ping", request := some rawPing }

/-- A collection item whose `request` field is absent. -/
def itemNoRequest : Item := { name := "bad", request := none }

/-- A transport oracle that always answers status 200 in 5 ms. -/
def netOk : Nat → Nat → Nat → ResolvedSpec → NetOutcome :=
  fun _ _ _ _ => { status := some 200, duration := 5 }

/-- A transport oracle for a single request that always fails at the
transport level after 3 ms. -/
def netFail : ResolvedSpec → NetOutcome :=
  fun _ => { status := none, duration := 3 }

/-! ### Claims -/

/-- Claim C1: for every config with `users ≥ 1`, `repetitions ≥ 1` and a
collection of length `L` whose items are all structurally valid, a
completed run of `simulateLoad` produces exactly
`users × repetitions × L` results — the `totalRequests` count computed
before the run — and every result's name is the name of some item of
the collection. -/
theorem C1_completed_run_counts (users repetitions : Nat) (collection : List Item)
    (net : Nat → Nat → Nat → ResolvedSpec → NetOutcome)
    (_hu : 1 ≤ users) (_hr : 1 ≤ repetitions)
    (hwf : ∀ it ∈ collection, it.request.isSome) :
    ∃ rs : List RequestResult,
      simulateLoad users repetitions collection net = .ok rs ∧
      rs.length = totalRequests users repetitions collection ∧
      ∀ r ∈ rs, ∃ it ∈ collection, r.name = it.name := by
  unfold simulateLoad
  rw [mapM_eq_exceptMapList]
  have hall : ∀ t ∈ requestSchedule users repetitions collection,
      ∃ y, runRequest t.2.2.2 (net t.1 t.2.1 t.2.2.1) = .ok y := by
    intro t ht
    have hmem := requestSchedule_item_mem users repetitions collection t ht
    obtain ⟨req, hreq⟩ := Option.isSome_iff_exists.mp (hwf _ hmem)
    unfold runRequest
    rw [hreq]
    exact ⟨_, rfl⟩
  obtain ⟨ys, hys, hlen, hmem⟩ :=
    exceptMapList_ok_of_all _ (requestSchedule users repetitions collection) hall
  refine ⟨ys, hys, ?_, ?_⟩
  · rw [hlen, requestSchedule_length]
  · intro r hr0
    obtain ⟨t, ht, hok⟩ := hmem r hr0
    exact ⟨t.2.2.2, requestSchedule_item_mem _ _ _ t ht, runRequest_ok_name _ _ _ hok⟩

/-- Witness for C1 at a concrete input: one user, one repetition, a
one-item collection, a transport that always answers 200. -/
theorem C1_witness : ∃ rs : List RequestResult,
    simulateLoad 1 1 [itemPing] netOk = .ok rs ∧
    rs.length = totalRequests 1 1 [itemPing] ∧
    ∀ r ∈ rs, ∃ it ∈ [itemPing], r.name = it.name :=
  C1_completed_run_counts 1 1 [itemPing] netOk (by decide) (by decide) (by decide)

/-- Claim C2: for every executed request (structurally valid item),
`runRequest` returns (never throws) a result whose `success` is true iff
the status lies in `[200, 400)`; on a transport-level failure the status
is 0 and `success` is false; on a received response the status is the
received one. -/
theorem C2_runRequest_classification (item : Item) (req : RawRequest)
    (net : ResolvedSpec → NetOutcome) (hreq : item.request = some req) :
    ∃ res : RequestResult,
      runRequest item net = .ok res ∧
      (res.success = true ↔ 200 ≤ res.status ∧ res.status < 400) ∧
      ((net (resolveSpec req)).status = none → res.status = 0 ∧ res.success = false) ∧
      (∀ s, (net (resolveSpec req)).status = some s → res.status = s) := by
  unfold runRequest
  rw [hreq]
  cases hs : (net (resolveSpec req)).status with
  | none =>
    exact ⟨_, rfl, by simp [hs], by simp [hs], by simp [hs]⟩
  | some s =>
    exact ⟨_, rfl, by simp [hs, Bool.and_eq_true, decide_eq_true_eq],
      by simp [hs], by simp [hs]⟩

/-- Witness for C2 at a concrete input: a valid item against a transport
that always fails. -/
theorem C2_witness : ∃ res : RequestResult,
    runRequest itemPing netFail = .ok res ∧
    (res.success = true ↔ 200 ≤ res.status ∧ res.status < 400) ∧
    ((netFail (resolveSpec rawPing)).status = none → res.status = 0 ∧ res.success = false) ∧
    (∀ s, (netFail (resolveSpec rawPing)).status = some s → res.status = s) :=
  C2_runRequest_classification itemPing rawPing netFail rfl

/-- Claim C4 counterexample: with a first item lacking `request`, the
load simulation does NOT skip the entry and continue — the resolution
TypeError escapes `runRequest` (it is thrown before the try block) and
the run fails instead of producing the remaining results. -/
theorem C4_counterexample :
    simulateLoad 1 1 [itemNoRequest, itemPing] netOk = .error () := by rfl

/-- Claim C4 amended: an item lacking `request` makes `runRequest` throw
(the dereference happens before the try block), the entry is not
skipped, and with `users ≥ 1`, `repetitions ≥ 1` the whole simulation
never completes with a result list. -/
theorem C4_missing_request_aborts (users repetitions : Nat) (collection : List Item)
    (net : Nat → Nat → Nat → ResolvedSpec → NetOutcome)
    (hu : 1 ≤ users) (hr : 1 ≤ repetitions)
    (hbad : ∃ it ∈ collection, it.request = none) :
    (∀ (item : Item) (o : ResolvedSpec → NetOutcome), item.request = none →
        runRequest item o = .error ()) ∧
    ∀ rs : List RequestResult, simulateLoad users repetitions collection net ≠ .ok rs := by
  constructor
  · intro item o h
    unfold runRequest
    rw [h]
  · intro rs hok
    obtain ⟨it, hit, hnone⟩ := hbad
    obtain ⟨t, ht, hteq⟩ := requestSchedule_mem_of_item users repetitions collection hu hr it hit
    unfold simulateLoad at hok
    rw [mapM_eq_exceptMapList] at hok
    obtain ⟨y, hy⟩ := exceptMapList_all_of_ok _ _ rs hok t ht
    rw [hteq] at hy
    unfold runRequest at hy
    rw [hnone] at hy
    exact Except.noConfusion hy

/-- Witness for the amended C4 at a concrete input. -/
theorem C4_witness :
    (∀ (item : Item) (o : ResolvedSpec → NetOutcome), item.request = none →
        runRequest item o = .error ()) ∧
    ∀ rs : List RequestResult, simulateLoad 1 1 [itemNoRequest] netOk ≠ .ok rs :=
  C4_missing_request_aborts 1 1 [itemNoRequest] netOk (by decide) (by decide)
    ⟨itemNoRequest, by simp, rfl⟩

theorem lookupObj_cons (x : String × String) (m : List (String × String)) (k : String) :
    lookupObj (x :: m) k = if x.1 = k then some x.2 else lookupObj m k := by
  unfold lookupObj
  rw [List.find?_cons]
  by_cases h : x.1 = k <;> simp [h]

theorem objSet_cons (p : String × String) (m : List (String × String)) (k v : String) :
    objSet (p :: m) k v =
      if p.1 = k then (k, v) :: m.map (fun q => if q.1 = k then (k, v) else q)
      else p :: objSet m k v := by
  by_cases h : p.1 = k
  · simp [objSet, h]
  · by_cases hm : m.any (fun q => q.1 = k) <;> simp [objSet, h, hm]

theorem lookupObj_map_ne (m : List (String × String)) (k v k' : String) (h : k' ≠ k) :
    lookupObj (m.map (fun q => if q.1 = k then (k, v) else q)) k' = lookupObj m k' := by
  induction m with
  | nil => rfl
  | cons q m ih =>
    rw [List.map_cons, lookupObj_cons, lookupObj_cons]
    by_cases hq : q.1 = k
    · simp [hq, Ne.symm h, ih]
    · simp [hq, ih]

theorem lookupObj_objSet_self (m : List (String × String)) (k v : String) :
    lookupObj (objSet m k v) k = some v := by
  induction m with
  | nil => simp [objSet, lookupObj]
  | cons p m ih =>
    rw [objSet_cons]
    by_cases hp : p.1 = k
    · rw [if_pos hp, lookupObj_cons]
      simp
    · rw [if_neg hp, lookupObj_cons, if_neg hp]
      exact ih

theorem lookupObj_objSet_ne (m : List (String × String)) (k v k' : String)
    (h : k' ≠ k) : lookupObj (objSet m k v) k' = lookupObj m k' := by
  induction m with
  | nil =>
    rw [show objSet [] k v = [(k, v)] from rfl, lookupObj_cons]
    rw [if_neg (fun hh => h hh.symm)]
  | cons p m ih =>
    rw [objSet_cons]
    by_cases hp : p.1 = k
    · rw [if_pos hp, lookupObj_cons, lookupObj_cons]
      simp [hp, Ne.symm h, lookupObj_map_ne m k v k' h]
    · rw [if_neg hp, lookupObj_cons, lookupObj_cons]
      by_cases hpk : p.1 = k' <;> simp [hpk, ih]

theorem find?_append_or {α : Type} (p : α → Bool) (l₁ l₂ : List α) :
    (l₁ ++ l₂).find? p = (l₁.find? p).orElse (fun _ => l₂.find? p) := by
  induction l₁ with
  | nil => rfl
  | cons a l ih =>
    rw [List.cons_append, List.find?_cons, List.find?_cons]
    cases p a <;> simp [ih]

theorem lookupObj_foldl_objSet (k : String) (hs : List (Option String × String)) :
    ∀ acc : List (String × String),
      lookupObj (hs.foldl (fun acc h => objSet acc (coerceKey h.1) h.2) acc) k =
        match hs.reverse.find? (fun h => coerceKey h.1 = k) with
        | some h => some h.2
        | none => lookupObj acc k := by
  induction hs with
  | nil => intro acc; rfl
  | cons h t ih =>
    intro acc
    rw [List.foldl_cons, List.reverse_cons, find?_append_or, ih]
    cases hfind : t.reverse.find? (fun x => coerceKey x.1 = k) with
    | some x => simp
    | none =>
      show lookupObj (objSet acc (coerceKey h.1) h.2) k =
        match [h].find? (fun x => coerceKey x.1 = k) with
        | some x => some x.2
        | none => lookupObj acc k
      by_cases hk : coerceKey h.1 = k
      · rw [show [h].find? (fun x => coerceKey x.1 = k) = some h by
          simp [List.find?_cons, hk]]
        rw [← hk]
        exact lookupObj_objSet_self acc (coerceKey h.1) h.2
      · rw [show [h].find? (fun x => coerceKey x.1 = k) = none by
          simp [List.find?_cons, hk]]
        exact lookupObj_objSet_ne acc (coerceKey h.1) h.2 k (Ne.symm hk)

/-- Claim C5 counterexample: an entry lacking a `key` is NOT skipped.
The computed property name `[h.key]` coerces `undefined` to the string
"undefined", so the entry contributes a mapping under that key. -/
theorem C5_counterexample :
    resolveHeaders [(none, "v")] = [("undefined", "v")] ∧
    resolveHeaders [(none, "v")] ≠ [] := by
  constructor
  · rfl
  · decide

/-- Claim C5 amended: the resolver folds ordered `{key, value}` pairs
into a mapping where a later entry with a duplicate key overwrites the
earlier one (last-write-wins, looked up as the LAST matching entry),
but unkeyed entries are not skipped: a missing key is coerced to the
property name "undefined" and contributes under that key. -/
theorem C5_headers_last_write_wins (hs : List (Option String × String)) (k : String) :
    lookupObj (resolveHeaders hs) k =
      match hs.reverse.find? (fun h => coerceKey h.1 = k) with
      | some h => some h.2
      | none => none := by
  unfold resolveHeaders
  rw [lookupObj_foldl_objSet k hs []]
  cases hs.reverse.find? (fun h => coerceKey h.1 = k) <;> rfl

theorem p95Index_lt (n : Nat) (h : 1 ≤ n) : p95Index n < n := by
  unfold p95Index
  apply Nat.div_lt_of_lt_mul
  omega

theorem getD_eq_get {α : Type} (d : α) :
    ∀ (l : List α) (i : Nat) (h : i < l.length), l.getD i d = l.get ⟨i, h⟩ := by
  intro l
  induction l with
  | nil => intro i h; exact absurd h (Nat.not_lt_zero i)
  | cons a t ih =>
    intro i h
    cases i with
    | zero => rfl
    | succ j => exact ih j (Nat.lt_of_succ_lt_succ h)

/-- Claim C3: for every non-empty duration group, `p95Ms` is the element
at index `floor(0.95 * N)` of the ascending-sorted durations; for a
single duration it is that duration; for the durations 1..20 it is
20. -/
theorem C3_p95_nearest_rank (l : List Nat) (hl : l ≠ []) :
    (∃ h : p95Index l.length < (sortTimes l).length,
        p95 l = (sortTimes l).get ⟨p95Index l.length, h⟩) ∧
    (∀ d : Nat, p95 [d] = d) ∧
    p95 (List.range' 1 20) = 20 := by
  refine ⟨?_, ?_, ?_⟩
  · have hlen : (sortTimes l).length = l.length := by
      unfold sortTimes
      exact List.length_insertionSort _ l
    have hb : p95Index l.length < (sortTimes l).length := by
      rw [hlen]
      exact p95Index_lt l.length (List.length_pos.mpr hl)
    exact ⟨hb, getD_eq_get 0 (sortTimes l) (p95Index l.length) hb⟩
  · intro d
    show (sortTimes [d]).getD (p95Index 1) 0 = d
    rw [show p95Index 1 = 0 from by decide]
    rfl
  · decide

/-- Witness for C3 at the concrete group `[7, 3]`. -/
theorem C3_witness :
    (∃ h : p95Index ([7, 3] : List Nat).length < (sortTimes [7, 3]).length,
        p95 [7, 3] = (sortTimes [7, 3]).get ⟨p95Index ([7, 3] : List Nat).length, h⟩) ∧
    (∀ d : Nat, p95 [d] = d) ∧
    p95 (List.range' 1 20) = 20 :=
  C3_p95_nearest_rank [7, 3] (by decide)

/-- Claim C8: for a non-empty group the p95 index `floor(0.95 * N)` is
strictly below `N`, so the unclamped indexing into the sorted list is in
bounds and yields a defined value. -/
theorem C8_p95_index_safe (l : List Nat) (hl : l ≠ []) :
    p95Index (sortTimes l).length < (sortTimes l).length ∧
    (sortTimes l)[p95Index l.length]? = some (p95 l) := by
  have hlen : (sortTimes l).length = l.length := by
    unfold sortTimes
    exact List.length_insertionSort _ l
  have hpos : 1 ≤ l.length := List.length_pos.mpr hl
  have hb : p95Index l.length < (sortTimes l).length := by
    rw [hlen]; exact p95Index_lt l.length hpos
  refine ⟨by rw [hlen]; exact p95Index_lt l.length hpos, ?_⟩
  rw [List.getElem?_eq_getElem hb]
  unfold p95
  rw [getD_eq_get 0 (sortTimes l) (p95Index l.length) hb]
  rfl

/-- Witness for C8 at the concrete group `[5]`. -/
theorem C8_witness :
    p95Index (sortTimes [5]).length < (sortTimes [5]).length ∧
    (sortTimes [5])[p95Index ([5] : List Nat).length]? = some (p95 [5]) :=
  C8_p95_index_safe [5] (by decide)

/-- Claim C6 counterexample: the progress indicator is computed with
`Math.round`, not `floor`.  After 2 of 3 requests the code reports
`round(66.66) = 67` while `floor(2/3 * 100) = 66`. -/
theorem C6_counterexample :
    progressPct 2 3 = some 67 ∧ progressPct 2 3 ≠ some (100 * 2 / 3) := by
  constructor
  · decide
  · decide

/-- Claim C6 amended: the progress indicator reported after the c-th
result equals `round(c / t * 100)` — half rounded up, i.e. the unique
`p` with `p * (2t) ≤ 200c + t < (p + 1) * (2t)` — not `floor`, and it
is monotonically non-decreasing over the run. -/
theorem C6_progress_rounds_half_up (c cNext t : Nat) (ht : 0 < t) (hc : c ≤ cNext) :
    (∃ p, progressPct c t = some p ∧
        p * (2 * t) ≤ 200 * c + t ∧ 200 * c + t < (p + 1) * (2 * t)) ∧
    (∀ p q, progressPct c t = some p → progressPct cNext t = some q → p ≤ q) := by
  have ht0 : t ≠ 0 := Nat.pos_iff_ne_zero.mp ht
  have h2t : 0 < 2 * t := by omega
  constructor
  · refine ⟨(200 * c + t) / (2 * t), ?_, ?_, ?_⟩
    · unfold progressPct
      rw [if_neg ht0]
    · exact Nat.div_mul_le_self _ _
    · exact (Nat.div_lt_iff_lt_mul h2t).mp (Nat.lt_succ_self _)
  · intro p q hp hq
    unfold progressPct at hp hq
    rw [if_neg ht0] at hp hq
    have hp1 : p = (200 * c + t) / (2 * t) := (Option.some.inj hp).symm
    have hq1 : q = (200 * cNext + t) / (2 * t) := (Option.some.inj hq).symm
    rw [hp1, hq1]
    apply Nat.div_le_div_right
    have := Nat.mul_le_mul_left 200 hc
    omega

/-- Witness for the amended C6 at `c = 1`, `cNext = 2`, `t = 4`. -/
theorem C6_witness :
    (∃ p, progressPct 1 4 = some p ∧
        p * (2 * 4) ≤ 200 * 1 + 4 ∧ 200 * 1 + 4 < (p + 1) * (2 * 4)) ∧
    (∀ p q, progressPct 1 4 = some p → progressPct 2 4 = some q → p ≤ q) :=
  C6_progress_rounds_half_up 1 2 4 (by decide) (by decide)

/-- Claim C7: a degenerate run (`totalRequests == 0`, e.g. an empty
collection) completes immediately with zero results, the report has
zero rows, and the divisions by zero do not raise: the progress
percentage and the global success rate and average are the JS `NaN`
(modelled `none`) rather than a crash — all the functions involved are
total. -/
theorem C7_degenerate_run (users repetitions : Nat) (collection : List Item)
    (net : Nat → Nat → Nat → ResolvedSpec → NetOutcome)
    (h0 : totalRequests users repetitions collection = 0) :
    simulateLoad users repetitions collection net = .ok [] ∧
    summaryRows [] = [] ∧
    globalSuccessRate [] = none ∧
    globalAvg [] = none ∧
    progressPct 0 (totalRequests users repetitions collection) = none := by
  have hsched : requestSchedule users repetitions collection = [] := by
    have hl := requestSchedule_length users repetitions collection
    rw [h0] at hl
    exact List.length_eq_zero.mp hl
  refine ⟨?_, rfl, rfl, rfl, ?_⟩
  · unfold simulateLoad
    rw [hsched]
    rfl
  · rw [h0]
    rfl

/-- Witness for C7 with an empty collection. -/
theorem C7_witness :
    simulateLoad 10 1 [] netOk = .ok [] ∧
    summaryRows [] = [] ∧
    globalSuccessRate [] = none ∧
    globalAvg [] = none ∧
    progressPct 0 (totalRequests 10 1 []) = none :=
  C7_degenerate_run 10 1 [] netOk (by decide)

theorem foldl_emitStep_eq (rs : List RequestResult) :
    ∀ s : RunState, rs.foldl emitStep s =
      { results := s.results ++ rs, completed := s.completed + rs.length } := by
  induction rs with
  | nil => intro s; simp
  | cons a l ih =>
    intro s
    rw [List.foldl_cons, ih]
    unfold emitStep
    have h1 : (s.results ++ [a]) ++ l = s.results ++ a :: l := by simp
    have h2 : s.completed + 1 + l.length = s.completed + (a :: l).length := by
      simp only [List.length_cons]
      omega
    rw [h1, h2]

theorem progressPct_total (t : Nat) (ht : 0 < t) : progressPct t t = some 100 := by
  have h2t : 0 < 2 * t := by omega
  unfold progressPct
  rw [if_neg (Nat.pos_iff_ne_zero.mp ht)]
  congr 1
  have h1 : 200 * t + t = t + 2 * t * 100 := by ring
  rw [h1, Nat.add_mul_div_left t 100 h2t, Nat.div_eq_of_lt (by omega)]

/-- Claim C9: each appended result is paired with one counter increment
inside one synchronous block, so at every point of the run (every
prefix of the emission sequence) `completedRequests` equals the length
of the shared results collection; after all users finish the counter
equals `totalRequests` and the final progress report is exactly
100%. -/
theorem C9_counter_matches_results (t : Nat) (rs : List RequestResult)
    (users repetitions : Nat) (collection : List Item)
    (net : Nat → Nat → Nat → ResolvedSpec → NetOutcome)
    (ht : 0 < t) (hlen : rs.length = t) :
    (∀ n : Nat, (runEmissions (rs.take n)).completed =
        (runEmissions (rs.take n)).results.length) ∧
    (runEmissions rs).results = rs ∧
    (runEmissions rs).completed = t ∧
    progressPct (runEmissions rs).completed t = some 100 ∧
    (simulateLoad users repetitions collection net = .ok rs →
      (runEmissions rs).completed = totalRequests users repetitions collection) := by
  have hrun : ∀ l : List RequestResult, runEmissions l =
      { results := l, completed := l.length } := by
    intro l
    unfold runEmissions
    rw [foldl_emitStep_eq l]
    simp
  refine ⟨?_, ?_, ?_, ?_, ?_⟩
  · intro n; rw [hrun]
  · rw [hrun]
  · rw [hrun, hlen]
  · rw [hrun, hlen]
    exact progressPct_total t ht
  · intro hok
    rw [hrun]
    unfold simulateLoad at hok
    rw [mapM_eq_exceptMapList] at hok
    rw [← requestSchedule_length users repetitions collection]
    exact exceptMapList_length _ _ rs hok

/-- The single result produced by `itemPing` under `netOk`. -/
def resPing : RequestResult :=
  { name := "ping", status := 200, duration := 5, success := true }

/-- Witness for C9 at a concrete one-request run. -/
theorem C9_witness :
    (∀ n : Nat, (runEmissions ([resPing].take n)).completed =
        (runEmissions ([resPing].take n)).results.length) ∧
    (runEmissions [resPing]).results = [resPing] ∧
    (runEmissions [resPing]).completed = 1 ∧
    progressPct (runEmissions [resPing]).completed 1 = some 100 ∧
    (simulateLoad 1 1 [itemPing] netOk = .ok [resPing] →
      (runEmissions [resPing]).completed = totalRequests 1 1 [itemPing]) :=
  C9_counter_matches_results 1 [resPing] 1 1 [itemPing] netOk (by decide) (by decide)

/-- Claim C10: `loadConfig` merges the parsed config file over the
defaults field-by-field with no range validation: any present value for
`users`, `repetitions` or `delayMsBetweenUsers` — including 0 and
negative numbers — passes through verbatim. -/
theorem C10_config_passthrough (uc : UserConfig) (u r d : Int)
    (hu : uc.users = some u) (hr : uc.repetitions = some r)
    (hd : uc.delayMsBetweenUsers = some d) :
    (loadConfig (some uc)).users = u ∧
    (loadConfig (some uc)).repetitions = r ∧
    (loadConfig (some uc)).delayMsBetweenUsers = d := by
  simp [loadConfig, mergeConfig, hu, hr, hd]

/-- A config file with out-of-range values: 0 users, -5 repetitions,
-1 ms delay. -/
def ucOutOfRange : UserConfig :=
  { collectionPath := none
  , users := some 0
  , repetitions := some (-5)
  , delayMsBetweenUsers := some (-1) }

/-- Witness for C10: the out-of-range values pass through verbatim. -/
theorem C10_witness :
    (loadConfig (some ucOutOfRange)).users = 0 ∧
    (loadConfig (some ucOutOfRange)).repetitions = -5 ∧
    (loadConfig (some ucOutOfRange)).delayMsBetweenUsers = -1 :=
  C10_config_passthrough ucOutOfRange 0 (-5) (-1) rfl rfl rfl
